import Mathlib

/-!
Verification of the ingestion/normalization pipeline and aggregation engine.

Shallow embedding of the core data pipeline of the site:
value coercion, genre resolution, era (century vs. AH year) resolution,
deterministic pseudo-year synthesis, the record-building row loops with their
window filters and minimum-yield guards, and the century/genre aggregation.

Sources embedded:
* the data page script (`findColumn`/`coerceNumber`/`inferGenreValue`/
  `inferCenturyValue`/row loop/`dataByCentury`), called the *data page* below;
* the newest results page script (`normalizeGenre`/`inferCenturyFromDate`/
  `hashToUnit`/row loop with jitter/pooled and per-genre aggregation),
  called *results variant A* below;
* the older results page script whose `coerceNumber` extracts the first
  embedded numeric token with a regex, called *results variant B* below.

Modelling conventions: JavaScript numbers are modelled as exact rationals
(`ℚ`); the 32-bit hash state is a natural number reduced modulo `2^32`
(faithful to `Math.imul`/`^`/`>>> 0`, which operate on the same 32-bit
two's-complement bit patterns); strings are Lean strings, with JS
`charCodeAt` code units modelled by `Char.toNat` (identical on the
Basic Multilingual Plane); JS `null`/falsy-guard results are `Option`.
`trim`/`toUpperCase`/`toLowerCase` are modelled on ASCII, which covers the
genre codes and numeric cells the pipeline inspects.
-/

namespace LoveLit

/-! ## Small string helpers (`norm`, `trim`, first-occurrence `replace`) -/

/-- JS `String.prototype.replace(",", ".")`: replaces only the first comma. -/
def replaceFirstComma : List Char → List Char
  | [] => []
  | c :: t => if c = ',' then '.' :: t else c :: replaceFirstComma t

/-- JS `String.prototype.trim` (ASCII whitespace). -/
def jsTrim (cs : List Char) : List Char :=
  ((cs.dropWhile Char.isWhitespace).reverse.dropWhile Char.isWhitespace).reverse

/-- The helper `norm`: `String(s).trim()`. -/
def normString (s : String) : String := (jsTrim s.data).asString

/-! ## Numeric coercion

Two distinct `coerceNumber` implementations exist in the sources.

The *simple* one (data page, results variant A):
`const n = +String(x ?? "").replace(",", ".").trim(); return Number.isFinite(n) ? n : null;`
It relies on JS `ToNumber` on the whole trimmed string, which we model by
`jsStringToNumber` below (`none` encodes NaN or an infinity, both of which
fail the `Number.isFinite` check; the empty string converts to `0`).

The *regex* one (results variant B):
`const m = String(x ?? "").replace(",", ".").match(regex -?\d+(\.\d+)? ); const n = m ? +m[0] : NaN; ...`
It extracts the first embedded numeric token. -/

def digitVal (c : Char) : ℕ := c.toNat - 48

def natOfDigits (ds : List Char) : ℕ := ds.foldl (fun a c => a * 10 + digitVal c) 0

/-- Value of a digit in radix ≤ 16, `none` for a non-digit. -/
def hexDigitVal (c : Char) : Option ℕ :=
  if c.isDigit then some (c.toNat - 48)
  else if 'a' ≤ c ∧ c ≤ 'f' then some (c.toNat - 87)
  else if 'A' ≤ c ∧ c ≤ 'F' then some (c.toNat - 55)
  else none

/-- JS radix integer literal body (after `0x`/`0b`/`0o`). -/
def parseRadix (b : ℕ) (cs : List Char) : Option ℚ :=
  if cs.isEmpty then none
  else
    (cs.foldl
      (fun acc c =>
        match acc, hexDigitVal c with
        | some a, some d => if d < b then some (a * b + d) else none
        | _, _ => none)
      (some 0)).map (fun n => (n : ℚ))

/-- `int.frac` digits as an exact rational. -/
def mantissaVal (ids fds : List Char) : ℚ :=
  (natOfDigits ids : ℚ) + (natOfDigits fds : ℚ) / (10 : ℚ) ^ fds.length

/-- Exponent digits with optional sign; the whole remainder must be consumed. -/
def parseExpDigits (t : List Char) : Option ℤ :=
  let p : ℤ × List Char :=
    match t with
    | '+' :: r => (1, r)
    | '-' :: r => (-1, r)
    | _ => (1, t)
  let ds := p.2.takeWhile Char.isDigit
  if ds.isEmpty then none
  else if (p.2.dropWhile Char.isDigit).isEmpty then some (p.1 * natOfDigits ds) else none

/-- Optional `e`/`E` exponent part closing a decimal literal. -/
def parseExpPart : List Char → Option ℤ
  | [] => some 0
  | c :: t => if c = 'e' ∨ c = 'E' then parseExpDigits t else none

/-- Unsigned JS decimal literal: `digits [. digits] [exp]` or `. digits [exp]`,
consuming the whole string. -/
def parseDecLiteral (cs : List Char) : Option ℚ :=
  let ids := cs.takeWhile Char.isDigit
  let r1 := cs.dropWhile Char.isDigit
  match r1 with
  | '.' :: t =>
    let fds := t.takeWhile Char.isDigit
    let r2 := t.dropWhile Char.isDigit
    if ids.isEmpty ∧ fds.isEmpty then none
    else (parseExpPart r2).map (fun e => mantissaVal ids fds * (10 : ℚ) ^ e)
  | _ =>
    if ids.isEmpty then none
    else (parseExpPart r1).map (fun e => mantissaVal ids [] * (10 : ℚ) ^ e)

/-- Signed decimal part of JS `ToNumber` (`Infinity` is non-finite, hence `none`
for the purposes of the `Number.isFinite` guard). -/
def signedDecValue (cs : List Char) : Option ℚ :=
  let p : ℚ × List Char :=
    match cs with
    | '+' :: r => (1, r)
    | '-' :: r => (-1, r)
    | _ => (1, cs)
  if p.2 = "Infinity".data then none
  else (parseDecLiteral p.2).map (fun q => p.1 * q)

/-- JS `ToNumber` on an already-trimmed string, restricted to finite results:
empty string is `0`; `0x`/`0b`/`0o` radix literals carry no sign. -/
def jsStringToNumber (cs : List Char) : Option ℚ :=
  match cs with
  | [] => some 0
  | '0' :: c :: t =>
    if c = 'x' ∨ c = 'X' then parseRadix 16 t
    else if c = 'b' ∨ c = 'B' then parseRadix 2 t
    else if c = 'o' ∨ c = 'O' then parseRadix 8 t
    else signedDecValue ('0' :: c :: t)
  | cs => signedDecValue cs

/-- The simple `coerceNumber` (data page and results variant A). -/
def coerceNumber (x : String) : Option ℚ :=
  jsStringToNumber (jsTrim (replaceFirstComma x.data))

/-- `\d+(\.\d+)?` at the start of `cs` (with the already-consumed optional
sign), greedy, as the numeric value of the match. -/
def matchDigitsPart (neg : Bool) (cs : List Char) : Option ℚ :=
  let ids := cs.takeWhile Char.isDigit
  if ids.isEmpty then none
  else
    let r1 := cs.dropWhile Char.isDigit
    let fds :=
      match r1 with
      | '.' :: t2 => t2.takeWhile Char.isDigit
      | _ => []
    some ((if neg then (-1 : ℚ) else 1) * mantissaVal ids fds)

/-- Try to match the regex `-?\d+(\.\d+)?` at the start of `cs` and return the
numeric value of the match (a lone `-` not followed by a digit fails, like the
regex does after backtracking over the optional sign). -/
def matchNumAt (cs : List Char) : Option ℚ :=
  match cs with
  | [] => none
  | c :: t => if c = '-' then matchDigitsPart true t else matchDigitsPart false (c :: t)

/-- Leftmost match of `-?\d+(\.\d+)?` in a string, as its numeric value. -/
def firstNumToken : List Char → Option ℚ
  | [] => none
  | c :: t =>
    match matchNumAt (c :: t) with
    | some q => some q
    | none => firstNumToken t

/-- The regex `coerceNumber` (results variant B). -/
def coerceNumberB (x : String) : Option ℚ :=
  firstNumToken (replaceFirstComma x.data)

/-! ## Genre resolution -/

/-- The closed genre list, fixed display order. -/
def GENRES : List String := ["BIO", "DEV", "PHI", "POE", "RHE", "THE"]

/-- Does `needle` occur at the start of `hay`? -/
def begWith : List Char → List Char → Bool
  | _, [] => true
  | [], _ :: _ => false
  | a :: as, b :: bs => a == b && begWith as bs

/-- Does `needle` occur anywhere inside `hay` (JS `String.prototype.includes`)? -/
def occursIn : List Char → List Char → Bool
  | [], needle => needle.isEmpty
  | c :: t, needle => begWith (c :: t) needle || occursIn t needle

/-- JS `toUpperCase`, modelled per character (ASCII; the genre values the
pipeline distinguishes are ASCII). -/
def upperStr (s : String) : String := (s.data.map Char.toUpper).asString

/-- JS `toLowerCase`, modelled per character (ASCII). -/
def lowerStr (s : String) : String := (s.data.map Char.toLower).asString

/-- The single-letter `GENRE_MAP` lookup. -/
def genreMapLookup (k : String) : Option String :=
  if k = "b" then some "BIO"
  else if k = "d" then some "DEV"
  else if k = "n" then some "PHI"
  else if k = "p" then some "POE"
  else if k = "r" then some "RHE"
  else if k = "k" then some "THE"
  else none

/-- `normalizeGenre` of results variant A: falsy guard on the raw value, exact
whole-value match against the six codes, single-letter map, then the first
code the upper-cased value *starts with*. -/
def normalizeGenre (raw : String) : Option String :=
  if raw = "" then none
  else
    let s := normString raw
    let up := upperStr s
    if GENRES.contains up then some up
    else
      match genreMapLookup (lowerStr s) with
      | some g => some g
      | none => GENRES.find? (fun g => begWith up.data g.data)

/-- `inferGenreValue` of the data page: a single scan over the six codes testing
exact equality, upper-cased prefix, or containment of the code delimited by a
space on either side; no single-letter map. The trailing
`found || (GENRES.includes(upper) ? upper : null)` is kept as in the source. -/
def inferGenreValue (cell : String) : Option String :=
  let v := normString cell
  if v = "" then none
  else
    let upper := upperStr v
    match GENRES.find? (fun g =>
        upper == g || begWith upper.data g.data ||
        occursIn upper.data (' ' :: g.data) || occursIn upper.data (g.data ++ [' '])) with
    | some g => some g
    | none => if GENRES.contains upper then some upper else none

/-! ## Era resolution (century vs. AH year) -/

/-- `toCenturyFromYear` (data page): `Math.floor((y - 1) / 100) + 1`. -/
def toCenturyFromYear (y : ℚ) : ℤ := ⌊(y - 1) / 100⌋ + 1

/-- `inferCenturyFromDate` (results variant A) applied to the already-coerced
number: small values `1..30` are rounded centuries, `50..2000` are AH years
converted and accepted when the century lands in `[1, 30]`. -/
def inferCenturyFromDateNum (n : ℚ) : Option ℤ :=
  if 1 ≤ n ∧ n ≤ 30 then some (round n)
  else if 50 ≤ n ∧ n ≤ 2000 then
    let c := ⌊(n - 1) / 100⌋ + 1
    if 1 ≤ c ∧ c ≤ 30 then some c else none
  else none

/-- `inferCenturyFromDate` on the raw cell string. -/
def inferCenturyFromDate (v : String) : Option ℤ :=
  match coerceNumber v with
  | none => none
  | some n => inferCenturyFromDateNum n

/-- `inferCenturyValue` (data page) applied to the already-coerced number:
the falsy guard `if (!v) return null` also rejects `0`; the direct-century
branch only covers `2..20`; the AH-year branch is the same as variant A. -/
def inferCenturyValueNum (v : ℚ) : Option ℤ :=
  if v = 0 then none
  else if 2 ≤ v ∧ v ≤ 20 then some (round v)
  else if 50 ≤ v ∧ v ≤ 2000 then
    let c := toCenturyFromYear v
    if 1 ≤ c ∧ c ≤ 30 then some c else none
  else none

/-- `inferCenturyValue` on the optional century column cell
(`if (!centuryCol) return null`). -/
def inferCenturyValue (centuryCell : Option String) : Option ℤ :=
  match centuryCell with
  | none => none
  | some s =>
    match coerceNumber s with
    | none => none
    | some v => inferCenturyValueNum v

/-! ## Deterministic position synthesizer -/

/-- `hashToUnit`, hash accumulation: FNV-1a-style over UTF-16 code units,
reduced modulo `2^32` (the bit pattern kept by `Math.imul` / `^` / `>>> 0`). -/
def fnv1a32 (units : List ℕ) : ℕ :=
  units.foldl (fun h c => Nat.xor h c * 16777619 % 4294967296) 2166136261

/-- `hashToUnit` result: `(h >>> 0) / 4294967296`, in `[0, 1)`. -/
def hashToUnit (units : List ℕ) : ℚ := (fnv1a32 units : ℚ) / 4294967296

/-- The jitter offset: `Math.floor(hashToUnit(seed) * 100)`. -/
def jitterOf (units : List ℕ) : ℤ := ⌊hashToUnit units * 100⌋

/-- `yearApprox = (century - 1) * 100 + jitter + 1`. -/
def yearApproxOf (c : ℤ) (units : List ℕ) : ℤ := (c - 1) * 100 + jitterOf units + 1

/-- UTF-16 code units of a seed string (`charCodeAt`); identical to the scalar
values for Basic-Multilingual-Plane text, which covers the data at hand. -/
def strUnits (s : String) : List ℕ := s.data.map Char.toNat

/-! ## Record builders -/

/-- The raw cells of one row that results variant A reads (a column that was
not detected behaves as the empty cell). -/
structure RawCells where
  genreCell : String
  genreLabelCell : String
  dateCell : String
  loveCell : String
  titleCell : String
  authorCell : String
  uriCell : String
deriving DecidableEq

/-- The canonical record built by results variant A. -/
structure Record where
  genre : String
  century : ℤ
  year : ℤ
  love : ℚ
  title : String
  author : String
  uri : String
deriving DecidableEq

/-- `Math.max(0, Math.min(2, love))`. -/
def loveClamped (love : ℚ) : ℚ := max 0 (min 2 love)

/-- The seed preference `uri || title || author` (first non-empty string). -/
def seedOf (uri title author : String) : String :=
  if uri ≠ "" then uri else if title ≠ "" then title else author

/-- The per-row body of results variant A's `for (const r of raw)` loop.
Note: this loop applies *no* century window filter before pushing the row. -/
def buildRowA (r : RawCells) : Option Record :=
  match (normalizeGenre r.genreCell).orElse (fun _ => normalizeGenre r.genreLabelCell) with
  | none => none
  | some genre =>
    match inferCenturyFromDate r.dateCell with
    | none => none
    | some century =>
      match coerceNumber r.loveCell with
      | none => none
      | some love =>
        let title := normString r.titleCell
        let author := normString r.authorCell
        let uri := normString r.uriCell
        some ⟨genre, century, yearApproxOf century (strUnits (seedOf uri title author)),
              loveClamped love, title, author, uri⟩

/-- The raw cells of one row that the data page reads; the century and
year/date columns may be undetected. -/
structure DataCells where
  genreCell : String
  centuryCell : Option String
  yearCell : Option String
deriving DecidableEq

/-- The normalized `{genre, century}` row of the data page. -/
structure DataRecord where
  genre : String
  century : ℤ
deriving DecidableEq

/-- The century resolution of the data page's row loop:
`inferCenturyValue` first, then the year-column fallback
(`if (!c && yearCol) { ... toCenturyFromYear ... }`, whose converted century
is only guarded by its own falsy check, not by a range check). -/
def centuryOfData (r : DataCells) : Option ℤ :=
  match inferCenturyValue r.centuryCell with
  | some c => some c
  | none =>
    match r.yearCell with
    | none => none
    | some s =>
      match coerceNumber s with
      | none => none
      | some y =>
        if y = 0 then none
        else if toCenturyFromYear y = 0 then none else some (toCenturyFromYear y)

/-- The per-row body of the data page's `for (const r of raw)` loop, ending in
the `[2, 15]` window filter (`if (c < 2 || c > 15) continue`). -/
def buildRowData (r : DataCells) : Option DataRecord :=
  match inferGenreValue r.genreCell with
  | none => none
  | some g =>
    match centuryOfData r with
    | none => none
    | some c => if c < 2 ∨ 15 < c then none else some ⟨g, c⟩

/-- Outcome of a builder run: either the insufficient-data diagnostic (with
the row count it reports) or the list of canonical records. -/
inductive Outcome (α : Type) where
  | insufficient (n : ℕ)
  | ok (records : List α)
deriving DecidableEq

/-- Data page pipeline: build all rows, then `if (rows.length < 10)` render
the diagnostic instead of proceeding to the aggregates. -/
def runData (rs : List DataCells) : Outcome DataRecord :=
  let rows := rs.filterMap buildRowData
  if rows.length < 10 then Outcome.insufficient rows.length else Outcome.ok rows

/-- Results variant A pipeline: build all rows, then `if (rows.length < 20)`
render the diagnostic instead of proceeding to the aggregates. -/
def runA (rs : List RawCells) : Outcome Record :=
  let rows := rs.filterMap buildRowA
  if rows.length < 20 then Outcome.insufficient rows.length else Outcome.ok rows

/-! ## Aggregation -/

/-- One aggregate bucket `{century, mean, n}` (only emitted with `n > 0`, so
`mean` needs no null state here). -/
structure Bucket where
  century : ℤ
  mean : ℚ
  n : ℕ
deriving DecidableEq

/-- `d3.range(2, 16)`: the centuries the results variant A aggregation scans
(`MIN_C = 2`, `MAX_C = 15`); also `d3.range(2, 16)` on the data page. -/
def centuriesA : List ℤ := [2, 3, 4, 5, 6, 7, 8, 9, 10, 11, 12, 13, 14, 15]

/-- `rows.filter(r => r.century === c).map(r => r.love)`. -/
def lovesIn (rows : List Record) (c : ℤ) : List ℚ :=
  (rows.filter (fun r => r.century == c)).map Record.love

/-- The bucket for one century: the source maps every scanned century to
`{century, mean: vals.length ? d3.mean(vals) : null, n}` and then filters out
the `mean == null` entries; the map-then-filter is modelled as `filterMap`. -/
def bucketFor (rows : List Record) (c : ℤ) : Option Bucket :=
  if (lovesIn rows c).length = 0 then none
  else some ⟨c, (lovesIn rows c).sum / ((lovesIn rows c).length : ℚ), (lovesIn rows c).length⟩

/-- The pooled series of results variant A. -/
def pooledA (rows : List Record) : List Bucket :=
  centuriesA.filterMap (bucketFor rows)

/-- `rows.filter(r => r.genre === g && r.century === c).map(r => r.love)`. -/
def lovesInG (rows : List Record) (g : String) (c : ℤ) : List ℚ :=
  (rows.filter (fun r => r.genre == g && r.century == c)).map Record.love

/-- The per-genre bucket for one century. -/
def bucketForG (rows : List Record) (g : String) (c : ℤ) : Option Bucket :=
  if (lovesInG rows g c).length = 0 then none
  else
    some ⟨c, (lovesInG rows g c).sum / ((lovesInG rows g c).length : ℚ),
      (lovesInG rows g c).length⟩

/-- One genre's series. -/
def seriesForG (rows : List Record) (g : String) : List Bucket :=
  centuriesA.filterMap (bucketForG rows g)

/-- `byGenre`: the six per-genre series in fixed genre order. -/
def byGenreA (rows : List Record) : List (String × List Bucket) :=
  GENRES.map (fun g => (g, seriesForG rows g))

/-- Count of data-page rows at a `(century, genre)` cell. -/
def countGC (rows : List DataRecord) (c : ℤ) (g : String) : ℕ :=
  (rows.filter (fun r => r.century == c && r.genre == g)).length

/-- The data page's `dataByCentury` count matrix: per scanned century, the
per-genre counts in fixed genre order (the mutating `+= 1` loop lands every
kept row, whose century is always in the scanned range, in its cell). -/
def dataByCentury (rows : List DataRecord) : List (ℤ × List ℕ) :=
  centuriesA.map (fun c => (c, GENRES.map (fun g => countGC rows c g)))

end LoveLit

unseal Rat.add Rat.mul Rat.inv Rat.sub Rat.ofScientific

namespace LoveLit

/-! ## Helper lemmas -/

theorem foldl_mod_lt (l : List ℕ) (h : ℕ) (hh : h < 4294967296) :
    l.foldl (fun h c => Nat.xor h c * 16777619 % 4294967296) h < 4294967296 := by
  induction l generalizing h with
  | nil => exact hh
  | cons c t ih => exact ih _ (Nat.mod_lt _ (by norm_num))

theorem fnv1a32_lt (u : List ℕ) : fnv1a32 u < 4294967296 :=
  foldl_mod_lt u _ (by norm_num)

theorem jitterOf_eq (u : List ℕ) :
    jitterOf u = ((fnv1a32 u * 100 / 4294967296 : ℕ) : ℤ) := by
  unfold jitterOf hashToUnit
  rw [div_mul_eq_mul_div,
    show ((fnv1a32 u : ℚ) * 100) = ((fnv1a32 u * 100 : ℕ) : ℚ) by push_cast; ring,
    show ((4294967296 : ℚ)) = ((4294967296 : ℕ) : ℚ) by norm_num,
    Rat.floor_natCast_div_natCast]
  omega

theorem jitterOf_bounds (u : List ℕ) : 0 ≤ jitterOf u ∧ jitterOf u ≤ 99 := by
  rw [jitterOf_eq]
  refine ⟨Int.ofNat_nonneg _, ?_⟩
  have h1 : fnv1a32 u * 100 < 100 * 4294967296 := by
    have := fnv1a32_lt u
    nlinarith
  have h2 : fnv1a32 u * 100 / 4294967296 < 100 :=
    Nat.div_lt_of_lt_mul h1
  exact_mod_cast Nat.lt_succ_iff.mp h2

theorem yearApproxOf_bounds (c : ℤ) (u : List ℕ) :
    (c - 1) * 100 < yearApproxOf c u ∧ yearApproxOf c u ≤ c * 100 := by
  obtain ⟨h0, h99⟩ := jitterOf_bounds u
  unfold yearApproxOf
  constructor <;> nlinarith

theorem inferCenturyFromDateNum_bounds (n : ℚ) (c : ℤ)
    (h : inferCenturyFromDateNum n = some c) : 1 ≤ c ∧ c ≤ 30 := by
  unfold inferCenturyFromDateNum at h
  by_cases h1 : 1 ≤ n ∧ n ≤ 30
  · rw [if_pos h1] at h
    injection h with h
    subst h
    rw [round_eq]
    constructor
    · exact Int.le_floor.mpr (by push_cast; linarith [h1.1])
    · have : ⌊n + 1 / 2⌋ < 31 := Int.floor_lt.mpr (by push_cast; linarith [h1.2])
      omega
  · rw [if_neg h1] at h
    by_cases h2 : 50 ≤ n ∧ n ≤ 2000
    · rw [if_pos h2] at h
      by_cases h3 : 1 ≤ ⌊(n - 1) / 100⌋ + 1 ∧ ⌊(n - 1) / 100⌋ + 1 ≤ 30
      · simp only [if_pos h3] at h
        injection h with h
        subst h
        exact h3
      · simp only [if_neg h3] at h
        exact Option.noConfusion h
    · rw [if_neg h2] at h
      exact Option.noConfusion h

theorem inferCenturyFromDate_bounds (v : String) (c : ℤ)
    (h : inferCenturyFromDate v = some c) : 1 ≤ c ∧ c ≤ 30 := by
  unfold inferCenturyFromDate at h
  cases hn : coerceNumber v with
  | none => rw [hn] at h; exact Option.noConfusion h
  | some n => rw [hn] at h; exact inferCenturyFromDateNum_bounds n c h

theorem buildRowA_eq (r : RawCells) (rec : Record) (h : buildRowA r = some rec) :
    ∃ genre century love,
      (normalizeGenre r.genreCell).orElse (fun _ => normalizeGenre r.genreLabelCell)
          = some genre ∧
      inferCenturyFromDate r.dateCell = some century ∧
      coerceNumber r.loveCell = some love ∧
      rec = ⟨genre, century,
        yearApproxOf century (strUnits (seedOf (normString r.uriCell) (normString r.titleCell)
          (normString r.authorCell))),
        loveClamped love, normString r.titleCell, normString r.authorCell,
        normString r.uriCell⟩ := by
  unfold buildRowA at h
  cases hg : (normalizeGenre r.genreCell).orElse (fun _ => normalizeGenre r.genreLabelCell) with
  | none => rw [hg] at h; exact Option.noConfusion h
  | some genre =>
    rw [hg] at h
    cases hc : inferCenturyFromDate r.dateCell with
    | none => rw [hc] at h; exact Option.noConfusion h
    | some century =>
      rw [hc] at h
      cases hl : coerceNumber r.loveCell with
      | none => rw [hl] at h; exact Option.noConfusion h
      | some love =>
        rw [hl] at h
        injection h with h
        exact ⟨genre, century, love, rfl, rfl, rfl, h.symm⟩

theorem buildRowData_eq (r : DataCells) (rec : DataRecord) (h : buildRowData r = some rec) :
    ∃ g c, inferGenreValue r.genreCell = some g ∧ centuryOfData r = some c ∧
      ¬(c < 2 ∨ 15 < c) ∧ rec = ⟨g, c⟩ := by
  unfold buildRowData at h
  cases hg : inferGenreValue r.genreCell with
  | none => rw [hg] at h; exact Option.noConfusion h
  | some g =>
    simp only [hg] at h
    cases hc : centuryOfData r with
    | none => rw [hc] at h; exact Option.noConfusion h
    | some c =>
      simp only [hc] at h
      by_cases hw : c < 2 ∨ 15 < c
      · rw [if_pos hw] at h; exact Option.noConfusion h
      · rw [if_neg hw] at h
        injection h with h
        exact ⟨g, c, rfl, rfl, hw, h.symm⟩

theorem takeWhile_digit_nil (cs : List Char) (h : ∀ c ∈ cs, c.isDigit = false) :
    cs.takeWhile Char.isDigit = [] := by
  cases cs with
  | nil => rfl
  | cons c t =>
    have hc : c.isDigit = false := h c (List.mem_cons_self c t)
    simp [List.takeWhile_cons, hc]

theorem matchDigitsPart_none (neg : Bool) (cs : List Char)
    (h : ∀ c ∈ cs, c.isDigit = false) : matchDigitsPart neg cs = none := by
  unfold matchDigitsPart
  rw [takeWhile_digit_nil cs h]
  rfl

theorem matchNumAt_none (cs : List Char) (h : ∀ c ∈ cs, c.isDigit = false) :
    matchNumAt cs = none := by
  cases cs with
  | nil => rfl
  | cons c t =>
    show (if c = '-' then matchDigitsPart true t else matchDigitsPart false (c :: t)) = none
    by_cases hc : c = '-'
    · rw [if_pos hc]
      exact matchDigitsPart_none true t (fun x hx => h x (List.mem_cons_of_mem _ hx))
    · rw [if_neg hc]
      exact matchDigitsPart_none false (c :: t) h

theorem firstNumToken_none (cs : List Char) (h : ∀ c ∈ cs, c.isDigit = false) :
    firstNumToken cs = none := by
  induction cs with
  | nil => rfl
  | cons c t ih =>
    have hmn : matchNumAt (c :: t) = none := matchNumAt_none _ h
    unfold firstNumToken
    rw [hmn]
    exact ih (fun x hx => h x (List.mem_cons_of_mem _ hx))

theorem replaceFirstComma_noDigit (cs : List Char) (h : ∀ c ∈ cs, c.isDigit = false) :
    ∀ c ∈ replaceFirstComma cs, c.isDigit = false := by
  induction cs with
  | nil => intro x hx; exact absurd hx (by simp [replaceFirstComma])
  | cons c t ih =>
    intro x hx
    rw [replaceFirstComma] at hx
    by_cases hc : c = ','
    · rw [if_pos hc] at hx
      rcases List.mem_cons.mp hx with h1 | h2
      · subst h1; decide
      · exact h x (List.mem_cons_of_mem _ h2)
    · rw [if_neg hc] at hx
      rcases List.mem_cons.mp hx with h1 | h2
      · exact h x (h1 ▸ List.mem_cons_self _ _)
      · exact ih (fun y hy => h y (List.mem_cons_of_mem _ hy)) x h2

theorem matchDigitsPart_isSome (c : Char) (t : List Char) (hc : c.isDigit = true) :
    (matchDigitsPart false (c :: t)).isSome = true := by
  simp only [matchDigitsPart, List.takeWhile_cons, hc]
  simp

theorem firstNumToken_isSome (cs : List Char) (h : ∃ c ∈ cs, c.isDigit = true) :
    (firstNumToken cs).isSome = true := by
  induction cs with
  | nil =>
    obtain ⟨c, hc, -⟩ := h
    exact absurd hc (List.not_mem_nil c)
  | cons c t ih =>
    unfold firstNumToken
    by_cases hcd : c.isDigit = true
    · have hm : (matchNumAt (c :: t)).isSome = true := by
        have hcm : ¬(c = '-') := by
          intro hEq
          rw [hEq] at hcd
          exact absurd hcd (by decide)
        show ((if c = '-' then matchDigitsPart true t
          else matchDigitsPart false (c :: t)).isSome) = true
        rw [if_neg hcm]
        exact matchDigitsPart_isSome c t hcd
      cases hmn : matchNumAt (c :: t) with
      | some q => rfl
      | none => rw [hmn] at hm; exact absurd hm (by decide)
    · have hdt : ∃ c' ∈ t, c'.isDigit = true := by
        obtain ⟨c', hc', hd⟩ := h
        rcases List.mem_cons.mp hc' with h1 | h2
        · exact absurd (h1 ▸ hd) hcd
        · exact ⟨c', h2, hd⟩
      cases hmn : matchNumAt (c :: t) with
      | some q => rfl
      | none => exact ih hdt

theorem replaceFirstComma_hasDigit (cs : List Char) (h : ∃ c ∈ cs, c.isDigit = true) :
    ∃ c ∈ replaceFirstComma cs, c.isDigit = true := by
  induction cs with
  | nil =>
    obtain ⟨c, hc, -⟩ := h
    exact absurd hc (List.not_mem_nil c)
  | cons c t ih =>
    obtain ⟨c', hc', hd⟩ := h
    rw [replaceFirstComma]
    by_cases hc : c = ','
    · rw [if_pos hc]
      rcases List.mem_cons.mp hc' with h1 | h2
      · rw [h1, hc] at hd
        exact absurd hd (by decide)
      · exact ⟨c', List.mem_cons_of_mem _ h2, hd⟩
    · rw [if_neg hc]
      rcases List.mem_cons.mp hc' with h1 | h2
      · exact ⟨c, List.mem_cons_self _ _, h1 ▸ hd⟩
      · obtain ⟨c'', hmem, hd''⟩ := ih ⟨c', h2, hd⟩
        exact ⟨c'', List.mem_cons_of_mem _ hmem, hd''⟩

theorem genreMapLookup_mem (k g : String) (h : genreMapLookup k = some g) : g ∈ GENRES := by
  unfold genreMapLookup at h
  repeat' split at h
  all_goals first
    | exact Option.noConfusion h
    | (injection h with h; subst h; decide)

theorem contains_mem (l : List String) (x : String) (h : l.contains x = true) : x ∈ l :=
  List.mem_of_elem_eq_true h

theorem normalizeGenre_mem (s g : String) (h : normalizeGenre s = some g) : g ∈ GENRES := by
  unfold normalizeGenre at h
  by_cases h0 : s = ""
  · rw [if_pos h0] at h; exact Option.noConfusion h
  · rw [if_neg h0] at h
    by_cases h1 : GENRES.contains (upperStr (normString s)) = true
    · rw [if_pos h1] at h
      injection h with h
      exact h ▸ contains_mem _ _ h1
    · rw [if_neg h1] at h
      cases hm : genreMapLookup (lowerStr (normString s)) with
      | some g2 =>
        rw [hm] at h
        injection h with h
        exact h ▸ genreMapLookup_mem _ _ hm
      | none =>
        rw [hm] at h
        exact List.mem_of_find?_eq_some h

theorem inferGenreValue_mem (s g : String) (h : inferGenreValue s = some g) :
    g ∈ GENRES := by
  simp only [inferGenreValue] at h
  by_cases h0 : normString s = ""
  · rw [if_pos h0] at h; exact Option.noConfusion h
  · rw [if_neg h0] at h
    cases hf : GENRES.find? (fun g =>
        upperStr (normString s) == g || begWith (upperStr (normString s)).data g.data ||
        occursIn (upperStr (normString s)).data (' ' :: g.data) ||
        occursIn (upperStr (normString s)).data (g.data ++ [' '])) with
    | some g2 =>
      rw [hf] at h
      injection h with h
      exact h ▸ List.mem_of_find?_eq_some hf
    | none =>
      rw [hf] at h
      by_cases h1 : GENRES.contains (upperStr (normString s)) = true
      · rw [if_pos h1] at h
        injection h with h
        exact h ▸ contains_mem _ _ h1
      · rw [if_neg h1] at h
        exact Option.noConfusion h

theorem mem_centuriesA (c : ℤ) : c ∈ centuriesA ↔ 2 ≤ c ∧ c ≤ 15 := by
  simp only [centuriesA, List.mem_cons, List.not_mem_nil, or_false]
  omega

theorem bucketFor_some (rows : List Record) (c : ℤ) (b : Bucket)
    (h : bucketFor rows c = some b) :
    b.century = c ∧ 0 < b.n ∧ b.n = (lovesIn rows c).length ∧
      b.mean = (lovesIn rows c).sum / ((lovesIn rows c).length : ℚ) := by
  unfold bucketFor at h
  by_cases h0 : (lovesIn rows c).length = 0
  · rw [if_pos h0] at h; exact Option.noConfusion h
  · rw [if_neg h0] at h
    injection h with h
    subst h
    exact ⟨rfl, Nat.pos_of_ne_zero h0, rfl, rfl⟩

theorem bucketForG_some (rows : List Record) (g : String) (c : ℤ) (b : Bucket)
    (h : bucketForG rows g c = some b) :
    b.century = c ∧ 0 < b.n ∧ b.n = (lovesInG rows g c).length ∧
      b.mean = (lovesInG rows g c).sum / ((lovesInG rows g c).length : ℚ) := by
  unfold bucketForG at h
  by_cases h0 : (lovesInG rows g c).length = 0
  · rw [if_pos h0] at h; exact Option.noConfusion h
  · rw [if_neg h0] at h
    injection h with h
    subst h
    exact ⟨rfl, Nat.pos_of_ne_zero h0, rfl, rfl⟩

theorem lovesIn_perm (rows₁ rows₂ : List Record) (h : rows₁.Perm rows₂) (c : ℤ) :
    (lovesIn rows₁ c).Perm (lovesIn rows₂ c) :=
  (h.filter _).map _

theorem bucketFor_perm (rows₁ rows₂ : List Record) (h : rows₁.Perm rows₂) (c : ℤ) :
    bucketFor rows₁ c = bucketFor rows₂ c := by
  have hp := lovesIn_perm rows₁ rows₂ h c
  unfold bucketFor
  rw [hp.length_eq, hp.sum_eq]

theorem lovesInG_perm (rows₁ rows₂ : List Record) (h : rows₁.Perm rows₂) (g : String)
    (c : ℤ) : (lovesInG rows₁ g c).Perm (lovesInG rows₂ g c) :=
  (h.filter _).map _

theorem bucketForG_perm (rows₁ rows₂ : List Record) (h : rows₁.Perm rows₂) (g : String)
    (c : ℤ) : bucketForG rows₁ g c = bucketForG rows₂ g c := by
  have hp := lovesInG_perm rows₁ rows₂ h g c
  unfold bucketForG
  rw [hp.length_eq, hp.sum_eq]

/-! ## Claim theorems -/

/-- C1, counterexample: the claim says that an era value `v` with
`1 ≤ v ≤ 30` resolves to `v` itself; but `inferCenturyFromDate` resolves the
coerced value `7.6` to the century `8`, which is not `7.6`, and the data
page's `inferCenturyValue` resolves the value `1` — inside the claim's
`[1, 30]` direct range — to absent, because its direct branch starts at 2. -/
theorem C1_counterexample :
    inferCenturyFromDateNum (38 / 5 : ℚ) = some 8 ∧ ((8 : ℚ) ≠ 38 / 5) ∧
      inferCenturyValueNum (1 : ℚ) = none := by
  refine ⟨by decide, by decide, by decide⟩

/-- C1 (amended): for the results-page `inferCenturyFromDate`, a coerced value
`v` with `1 ≤ v ≤ 30` resolves to `round v` (so to `v` itself exactly when `v`
is an integer); `50 ≤ v ≤ 2000` resolves to `⌊(v-1)/100⌋ + 1`, whose `[1,30]`
acceptance check in fact always passes (the result lies in `[1,20]`); every
other value — in particular everything strictly between 30 and 50 — is absent.
The data-page `inferCenturyValue` applies the direct rule only for
`2 ≤ v ≤ 20` (also rounding); its values in `[1,2)` and `(20,30]` are absent,
and its AH-year branch is the same conversion. -/
theorem C1_era_resolution (v : ℚ) :
    (1 ≤ v ∧ v ≤ 30 → inferCenturyFromDateNum v = some (round v)) ∧
    (50 ≤ v ∧ v ≤ 2000 →
      inferCenturyFromDateNum v = some (⌊(v - 1) / 100⌋ + 1) ∧
      1 ≤ ⌊(v - 1) / 100⌋ + 1 ∧ ⌊(v - 1) / 100⌋ + 1 ≤ 20) ∧
    (30 < v → v < 50 → inferCenturyFromDateNum v = none) ∧
    (v < 1 → inferCenturyFromDateNum v = none) ∧
    (2000 < v → inferCenturyFromDateNum v = none) ∧
    (2 ≤ v ∧ v ≤ 20 → inferCenturyValueNum v = some (round v)) ∧
    (20 < v → v < 50 → inferCenturyValueNum v = none) ∧
    (v < 2 → inferCenturyValueNum v = none) ∧
    (50 ≤ v ∧ v ≤ 2000 → inferCenturyValueNum v = some (toCenturyFromYear v)) := by
  have hfloor : 50 ≤ v → v ≤ 2000 →
      1 ≤ ⌊(v - 1) / 100⌋ + 1 ∧ ⌊(v - 1) / 100⌋ + 1 ≤ 20 := by
    intro h50 h2000
    constructor
    · have : (0 : ℤ) ≤ ⌊(v - 1) / 100⌋ := Int.le_floor.mpr (by push_cast; linarith)
      omega
    · have : ⌊(v - 1) / 100⌋ < 20 := Int.floor_lt.mpr (by push_cast; linarith)
      omega
  refine ⟨?_, ?_, ?_, ?_, ?_, ?_, ?_, ?_, ?_⟩
  · intro h1
    simp only [inferCenturyFromDateNum]
    rw [if_pos h1]
  · intro h2
    have hb := hfloor h2.1 h2.2
    have hnot : ¬(1 ≤ v ∧ v ≤ 30) := by rintro ⟨-, hle⟩; linarith [h2.1]
    simp only [inferCenturyFromDateNum]
    rw [if_neg hnot, if_pos h2, if_pos ⟨hb.1, by omega⟩]
    exact ⟨rfl, hb⟩
  · intro hgt hlt
    have hnot : ¬(1 ≤ v ∧ v ≤ 30) := by rintro ⟨-, hle⟩; linarith
    have hnot2 : ¬(50 ≤ v ∧ v ≤ 2000) := by rintro ⟨hge, -⟩; linarith
    simp only [inferCenturyFromDateNum]
    rw [if_neg hnot, if_neg hnot2]
  · intro hlt
    have hnot : ¬(1 ≤ v ∧ v ≤ 30) := by rintro ⟨hge, -⟩; linarith
    have hnot2 : ¬(50 ≤ v ∧ v ≤ 2000) := by rintro ⟨hge, -⟩; linarith
    simp only [inferCenturyFromDateNum]
    rw [if_neg hnot, if_neg hnot2]
  · intro hgt
    have hnot : ¬(1 ≤ v ∧ v ≤ 30) := by rintro ⟨-, hle⟩; linarith
    have hnot2 : ¬(50 ≤ v ∧ v ≤ 2000) := by rintro ⟨-, hle⟩; linarith
    simp only [inferCenturyFromDateNum]
    rw [if_neg hnot, if_neg hnot2]
  · intro h1
    have hv0 : ¬(v = 0) := by rintro rfl; linarith [h1.1]
    simp only [inferCenturyValueNum]
    rw [if_neg hv0, if_pos h1]
  · intro hgt hlt
    have hv0 : ¬(v = 0) := by rintro rfl; linarith
    have hnot : ¬(2 ≤ v ∧ v ≤ 20) := by rintro ⟨-, hle⟩; linarith
    have hnot2 : ¬(50 ≤ v ∧ v ≤ 2000) := by rintro ⟨hge, -⟩; linarith
    simp only [inferCenturyValueNum]
    rw [if_neg hv0, if_neg hnot, if_neg hnot2]
  · intro hlt
    by_cases hv0 : v = 0
    · simp only [inferCenturyValueNum]
      rw [if_pos hv0]
    · have hnot : ¬(2 ≤ v ∧ v ≤ 20) := by rintro ⟨hge, -⟩; linarith
      have hnot2 : ¬(50 ≤ v ∧ v ≤ 2000) := by rintro ⟨hge, -⟩; linarith
      simp only [inferCenturyValueNum]
      rw [if_neg hv0, if_neg hnot, if_neg hnot2]
  · intro h2
    have hb := hfloor h2.1 h2.2
    have hv0 : ¬(v = 0) := by rintro rfl; linarith [h2.1]
    have hnot : ¬(2 ≤ v ∧ v ≤ 20) := by rintro ⟨-, hle⟩; linarith [h2.1]
    simp only [inferCenturyValueNum, toCenturyFromYear]
    rw [if_neg hv0, if_neg hnot, if_pos h2, if_pos ⟨hb.1, by omega⟩]

/-- C1, witness: resolving the literal value 7 returns 7 (the amended claim
keeps idempotence on canonical integer input). -/
theorem C1_era_resolution_w : inferCenturyFromDateNum (7 : ℚ) = some 7 := by
  have h := (C1_era_resolution (7 : ℚ)).1 (by norm_num)
  rw [h]
  decide

/-- C10, counterexample: the claim extends nearest-integer resolution to every
`v` with `1 ≤ v ≤ 30`, but the data-page `inferCenturyValue` resolves the
value 25 (which the claim would send to century 25) to absent, because its
direct branch only covers `2 ≤ v ≤ 20`. -/
theorem C10_counterexample : inferCenturyValueNum (25 : ℚ) = none := by decide

/-- C10 (amended): era resolution rounds to the nearest integer (halves up):
the results-page `inferCenturyFromDate` does so on all of `[1, 30]`
(7.4 resolves to 7, 7.6 resolves to 8), while the data-page
`inferCenturyValue` applies the direct rule, with the same rounding, only on
`[2, 20]`, returning absent on `[1, 2)` and `(20, 30]`; the resolved century
is an integer in every case. -/
theorem C10_rounded_centuries (v : ℚ) :
    (1 ≤ v ∧ v ≤ 30 → inferCenturyFromDateNum v = some (round v)) ∧
    (2 ≤ v ∧ v ≤ 20 → inferCenturyValueNum v = some (round v)) ∧
    (1 ≤ v ∧ v < 2 → inferCenturyValueNum v = none) ∧
    (20 < v ∧ v ≤ 30 → inferCenturyValueNum v = none) ∧
    inferCenturyFromDateNum (37 / 5 : ℚ) = some 7 ∧
    inferCenturyFromDateNum (38 / 5 : ℚ) = some 8 := by
  refine ⟨?_, ?_, ?_, ?_, by decide, by decide⟩
  · intro h1
    simp only [inferCenturyFromDateNum]
    rw [if_pos h1]
  · intro h1
    have hv0 : ¬(v = 0) := by rintro rfl; linarith [h1.1]
    simp only [inferCenturyValueNum]
    rw [if_neg hv0, if_pos h1]
  · intro h1
    have hv0 : ¬(v = 0) := by rintro rfl; linarith [h1.1]
    have hnot : ¬(2 ≤ v ∧ v ≤ 20) := by rintro ⟨hge, -⟩; linarith [h1.2]
    have hnot2 : ¬(50 ≤ v ∧ v ≤ 2000) := by rintro ⟨hge, -⟩; linarith [h1.2]
    simp only [inferCenturyValueNum]
    rw [if_neg hv0, if_neg hnot, if_neg hnot2]
  · intro h1
    have hv0 : ¬(v = 0) := by rintro rfl; linarith [h1.1]
    have hnot : ¬(2 ≤ v ∧ v ≤ 20) := by rintro ⟨-, hle⟩; linarith [h1.1]
    have hnot2 : ¬(50 ≤ v ∧ v ≤ 2000) := by rintro ⟨hge, -⟩; linarith [h1.2]
    simp only [inferCenturyValueNum]
    rw [if_neg hv0, if_neg hnot, if_neg hnot2]

/-- C10, witness: 7.4 resolves to 7 through the rounding branch. -/
theorem C10_rounded_centuries_w : inferCenturyFromDateNum (37 / 5 : ℚ) = some 7 :=
  (C10_rounded_centuries (37 / 5 : ℚ)).2.2.2.2.1

/-- C5: every emitted record's `loveIndex` is the coerced affect score clamped
into `[0, 2]`: scores below 0 map to 0 (−5 to 0), above 2 map to 2 (3.7 to 2),
scores already inside the range are kept (1.2 to 1.2), and every emitted
record's `love` lies in `[0, 2]`. -/
theorem C5_love_clamp :
    (∀ r rec, buildRowA r = some rec →
      ∃ q, coerceNumber r.loveCell = some q ∧ rec.love = loveClamped q) ∧
    (∀ q : ℚ, q < 0 → loveClamped q = 0) ∧
    (∀ q : ℚ, 2 < q → loveClamped q = 2) ∧
    (∀ q : ℚ, 0 ≤ q → q ≤ 2 → loveClamped q = q) ∧
    (∀ r rec, buildRowA r = some rec → 0 ≤ rec.love ∧ rec.love ≤ 2) ∧
    loveClamped (-5) = 0 ∧ loveClamped (37 / 10) = 2 ∧ loveClamped (6 / 5) = 6 / 5 := by
  have hclamp : ∀ q : ℚ, 0 ≤ loveClamped q ∧ loveClamped q ≤ 2 := by
    intro q
    unfold loveClamped
    exact ⟨le_max_left _ _, max_le (by norm_num) (min_le_left _ _)⟩
  refine ⟨?_, ?_, ?_, ?_, ?_, by decide, by decide, by decide⟩
  · intro r rec h
    obtain ⟨genre, century, love, -, -, hl, hrec⟩ := buildRowA_eq r rec h
    exact ⟨love, hl, by rw [hrec]⟩
  · intro q h
    unfold loveClamped
    rw [min_eq_right (by linarith), max_eq_left (by linarith)]
  · intro q h
    unfold loveClamped
    rw [min_eq_left (by linarith), max_eq_right (by norm_num)]
  · intro q h0 h2
    unfold loveClamped
    rw [min_eq_right h2, max_eq_right h0]
  · intro r rec h
    obtain ⟨genre, century, love, -, -, hl, hrec⟩ := buildRowA_eq r rec h
    rw [hrec]
    exact hclamp love

/-- C5, witness: a concrete row whose score cell reads "1" is emitted with
`love = loveClamped 1`. -/
theorem C5_love_clamp_w :
    ∃ q, coerceNumber (RawCells.mk "POE" "" "3" "1" "" "" "X").loveCell = some q ∧
      (Record.mk "POE" 3 287 1 "" "" "X").love = loveClamped q :=
  C5_love_clamp.1 ⟨"POE", "", "3", "1", "", "", "X"⟩ ⟨"POE", 3, 287, 1, "", "", "X"⟩
    (by decide)

/-- C2: the position synthesizer computes
`yearApprox = (century - 1) * 100 + ⌊(fnv1a32(seed) / 2^32) * 100⌋ + 1` with
the jitter offset equal to `fnv1a32(seed) * 100 / 2^32` (integer division),
always in `[0, 99]`; hence for every century `c` and every seed,
`(c - 1) * 100 < yearApprox ≤ c * 100`, and every record emitted by the row
loop satisfies this bucket bound. -/
theorem C2_year_approx :
    (∀ u : List ℕ, jitterOf u = ((fnv1a32 u * 100 / 4294967296 : ℕ) : ℤ) ∧
      0 ≤ jitterOf u ∧ jitterOf u ≤ 99) ∧
    (∀ (c : ℤ) (u : List ℕ),
      yearApproxOf c u = (c - 1) * 100 + jitterOf u + 1 ∧
      (c - 1) * 100 < yearApproxOf c u ∧ yearApproxOf c u ≤ c * 100) ∧
    (∀ r rec, buildRowA r = some rec →
      (rec.century - 1) * 100 < rec.year ∧ rec.year ≤ rec.century * 100) := by
  refine ⟨fun u => ⟨jitterOf_eq u, jitterOf_bounds u⟩,
    fun c u => ⟨rfl, yearApproxOf_bounds c u⟩, ?_⟩
  intro r rec h
  obtain ⟨genre, century, love, -, -, -, hrec⟩ := buildRowA_eq r rec h
  rw [hrec]
  exact yearApproxOf_bounds century _

/-- C2, witness: the concrete emitted record for a row with century 3 and
identifier "X" lands strictly inside the third century bucket. -/
theorem C2_year_approx_w :
    ((Record.mk "POE" 3 287 1 "" "" "X").century - 1) * 100
        < (Record.mk "POE" 3 287 1 "" "" "X").year ∧
      (Record.mk "POE" 3 287 1 "" "" "X").year
        ≤ (Record.mk "POE" 3 287 1 "" "" "X").century * 100 :=
  C2_year_approx.2.2 ⟨"POE", "", "3", "1", "", "", "X"⟩ ⟨"POE", 3, 287, 1, "", "", "X"⟩
    (by decide)

/-- C3, counterexample: the claim says numeric coercion falls back to the
first embedded numeric token ("400 AH" coerces to 400) and returns absent on
the empty string; but the simple `coerceNumber` shared by the data page and
the newest results page has no such fallback — it coerces "400 AH" to absent —
and it coerces the empty string to 0, not to absent. -/
theorem C3_counterexample :
    coerceNumber "400 AH" = none ∧ coerceNumber "" = some 0 := by
  constructor
  · decide
  · decide

/-- C3 (amended): only the older results page's `coerceNumber` extracts the
first embedded numeric token: it coerces "400 AH" to 400, accepts a decimal
comma ("3,5 AH" coerces to 3.5), and returns absent — never raising — exactly
when the string contains no digit, in particular on the empty string. The
simple `coerceNumber` of the data page and the newest results page accepts a
decimal comma on clean numbers ("3,5" coerces to 3.5) but has no token
fallback: "400 AH" and "abc" coerce to absent, while the empty (or
all-whitespace) string coerces to 0. -/
theorem C3_numeric_coercion :
    (∀ x : String, (∀ c ∈ x.data, c.isDigit = false) → coerceNumberB x = none) ∧
    (∀ x : String, (∃ c ∈ x.data, c.isDigit = true) → (coerceNumberB x).isSome = true) ∧
    coerceNumberB "400 AH" = some 400 ∧
    coerceNumberB "" = none ∧
    coerceNumberB "3,5 AH" = some (7 / 2) ∧
    coerceNumber "3,5" = some (7 / 2) ∧
    coerceNumber "400 AH" = none ∧
    coerceNumber "" = some 0 ∧
    coerceNumber "  " = some 0 ∧
    coerceNumber "abc" = none := by
  refine ⟨?_, ?_, by decide, by decide, by decide, by decide, by decide, by decide,
    by decide, by decide⟩
  · intro x hx
    unfold coerceNumberB
    exact firstNumToken_none _ (replaceFirstComma_noDigit _ hx)
  · intro x hx
    unfold coerceNumberB
    exact firstNumToken_isSome _ (replaceFirstComma_hasDigit _ hx)

/-- C3, witness: a digit-free cell coerces to absent under the token-extracting
variant. -/
theorem C3_numeric_coercion_w : coerceNumberB "AH" = none :=
  C3_numeric_coercion.1 "AH" (by decide)

/-- C4, counterexample: the claim says every row whose resolved century falls
outside the active window is rejected; but the newest results page's row loop
has no window filter, and emits a record with century 20 (outside both [1,15]
and [2,15]) for a row whose date cell reads "20". -/
theorem C4_counterexample :
    (buildRowA ⟨"POE", "", "20", "1", "", "", "X"⟩).map Record.century = some 20 := by
  decide

/-- C4 (amended): the data page's row loop rejects every row whose resolved
century falls outside [2, 15], so its emitted records all satisfy
`2 ≤ century ≤ 15`; the newest results page's row loop applies no window
filter when emitting records — its emitted centuries are only constrained to
`[1, 30]` by era resolution itself (only the later aggregation restricts its
scan to [2, 15]). -/
theorem C4_century_window :
    (∀ r rec, buildRowData r = some rec → 2 ≤ rec.century ∧ rec.century ≤ 15) ∧
    (∀ r rec, buildRowA r = some rec → 1 ≤ rec.century ∧ rec.century ≤ 30) := by
  constructor
  · intro r rec h
    obtain ⟨g, c, -, -, hw, hrec⟩ := buildRowData_eq r rec h
    rw [hrec]
    push_neg at hw
    exact ⟨hw.1, hw.2⟩
  · intro r rec h
    obtain ⟨genre, century, love, -, hc, -, hrec⟩ := buildRowA_eq r rec h
    rw [hrec]
    exact inferCenturyFromDate_bounds _ _ hc

/-- C4, witness: a concrete data-page record built from a century cell "3"
lies inside the [2, 15] window. -/
theorem C4_century_window_w :
    2 ≤ (DataRecord.mk "BIO" 3).century ∧ (DataRecord.mk "BIO" 3).century ≤ 15 :=
  C4_century_window.1 ⟨"BIO", some "3", none⟩ ⟨"BIO", 3⟩ (by decide)

/-- The record list of the aggregation arithmetic example:
(BIO, 3, 1.0), (BIO, 3, 0.5), (DEV, 3, 2.0). -/
def exRecords : List Record :=
  [⟨"BIO", 3, 255, 1, "", "", ""⟩, ⟨"BIO", 3, 256, 1 / 2, "", "", ""⟩,
    ⟨"DEV", 3, 257, 2, "", "", ""⟩]

/-- C6, counterexample: the claim says the pooled series has exactly one
bucket per century with at least one record; but the aggregation only scans
centuries 2..15, so a record list whose single record sits in century 1 — a
century the data model admits and the same file's row loop can emit — yields
an empty pooled series, with no bucket for century 1 at all. -/
theorem C6_counterexample : pooledA [⟨"BIO", 1, 55, 1, "", "", ""⟩] = [] := by decide

/-- C6 (amended): the pooled series contains exactly one bucket per century
*inside the scanned range [2, 15]* that has at least one record — with
`mean` the arithmetic mean of `loveIndex` over that century's records and `n`
their count, never a bucket with `n = 0` — and likewise for each per-genre
series; centuries outside the scanned range are omitted even when they have
records. On the example records the pooled century-3 bucket is
`{mean 7/6 ≈ 1.1667, n 3}` and the BIO century-3 bucket is `{mean 3/4, n 2}`. -/
theorem C6_aggregation :
    (∀ rows b, b ∈ pooledA rows → 2 ≤ b.century ∧ b.century ≤ 15 ∧ 0 < b.n ∧
      b.n = (lovesIn rows b.century).length ∧
      b.mean = (lovesIn rows b.century).sum / ((lovesIn rows b.century).length : ℚ)) ∧
    (∀ rows c, 2 ≤ c → c ≤ 15 → (lovesIn rows c).length ≠ 0 →
      ∃ b, b ∈ pooledA rows ∧ b.century = c) ∧
    (∀ rows b b', b ∈ pooledA rows → b' ∈ pooledA rows → b.century = b'.century →
      b = b') ∧
    (∀ rows g b, b ∈ seriesForG rows g → 2 ≤ b.century ∧ b.century ≤ 15 ∧ 0 < b.n ∧
      b.n = (lovesInG rows g b.century).length ∧
      b.mean = (lovesInG rows g b.century).sum / ((lovesInG rows g b.century).length : ℚ)) ∧
    (∀ rows g c, 2 ≤ c → c ≤ 15 → (lovesInG rows g c).length ≠ 0 →
      ∃ b, b ∈ seriesForG rows g ∧ b.century = c) ∧
    (∀ rows g b b', b ∈ seriesForG rows g → b' ∈ seriesForG rows g →
      b.century = b'.century → b = b') ∧
    pooledA exRecords = [⟨3, 7 / 6, 3⟩] ∧
    seriesForG exRecords "BIO" = [⟨3, 3 / 4, 2⟩] := by
  refine ⟨?_, ?_, ?_, ?_, ?_, ?_, by decide, by decide⟩
  · intro rows b hb
    obtain ⟨c, hcmem, hcb⟩ := List.mem_filterMap.mp hb
    obtain ⟨hcen, hn, hlen, hmean⟩ := bucketFor_some rows c b hcb
    obtain ⟨h2, h15⟩ := (mem_centuriesA c).mp hcmem
    subst hcen
    exact ⟨h2, h15, hn, hlen, hmean⟩
  · intro rows c h2 h15 hne
    refine ⟨⟨c, (lovesIn rows c).sum / ((lovesIn rows c).length : ℚ),
      (lovesIn rows c).length⟩, ?_, rfl⟩
    exact List.mem_filterMap.mpr
      ⟨c, (mem_centuriesA c).mpr ⟨h2, h15⟩, by unfold bucketFor; rw [if_neg hne]⟩
  · intro rows b b' hb hb' hcc
    obtain ⟨c, hcmem, hcb⟩ := List.mem_filterMap.mp hb
    obtain ⟨c', hcmem', hcb'⟩ := List.mem_filterMap.mp hb'
    have h1 := (bucketFor_some rows c b hcb).1
    have h2 := (bucketFor_some rows c' b' hcb').1
    have hcceq : c = c' := by rw [← h1, ← h2, hcc]
    subst hcceq
    exact Option.some.inj (hcb.symm.trans hcb')
  · intro rows g b hb
    obtain ⟨c, hcmem, hcb⟩ := List.mem_filterMap.mp hb
    obtain ⟨hcen, hn, hlen, hmean⟩ := bucketForG_some rows g c b hcb
    obtain ⟨h2, h15⟩ := (mem_centuriesA c).mp hcmem
    subst hcen
    exact ⟨h2, h15, hn, hlen, hmean⟩
  · intro rows g c h2 h15 hne
    refine ⟨⟨c, (lovesInG rows g c).sum / ((lovesInG rows g c).length : ℚ),
      (lovesInG rows g c).length⟩, ?_, rfl⟩
    exact List.mem_filterMap.mpr
      ⟨c, (mem_centuriesA c).mpr ⟨h2, h15⟩, by unfold bucketForG; rw [if_neg hne]⟩
  · intro rows g b b' hb hb' hcc
    obtain ⟨c, hcmem, hcb⟩ := List.mem_filterMap.mp hb
    obtain ⟨c', hcmem', hcb'⟩ := List.mem_filterMap.mp hb'
    have h1 := (bucketForG_some rows g c b hcb).1
    have h2 := (bucketForG_some rows g c' b' hcb').1
    have hcceq : c = c' := by rw [← h1, ← h2, hcc]
    subst hcceq
    exact Option.some.inj (hcb.symm.trans hcb')

/-- C6, witness: century 3 of the example records has records, so the pooled
series carries a bucket for it. -/
theorem C6_aggregation_w : ∃ b, b ∈ pooledA exRecords ∧ b.century = 3 :=
  C6_aggregation.2.1 exRecords 3 (by norm_num) (by norm_num) (by decide)

/-- C7: the Aggregator is order-independent — permuting the record list
changes neither the pooled series nor any per-genre series (nor the data
page's per-century count matrix): every bucket's `mean` and `n` is computed
from a filter of the rows, and filters of permuted lists are permutations,
with equal lengths and equal sums. -/
theorem C7_order_independence (rows₁ rows₂ : List Record)
    (drows₁ drows₂ : List DataRecord) (h : rows₁.Perm rows₂) (hd : drows₁.Perm drows₂) :
    pooledA rows₁ = pooledA rows₂ ∧ byGenreA rows₁ = byGenreA rows₂ ∧
      dataByCentury drows₁ = dataByCentury drows₂ := by
  refine ⟨?_, ?_, ?_⟩
  · unfold pooledA
    rw [funext (bucketFor_perm rows₁ rows₂ h)]
  · unfold byGenreA seriesForG
    rw [funext (fun g => funext (bucketForG_perm rows₁ rows₂ h g))]
  · have hc : ∀ c g, countGC drows₁ c g = countGC drows₂ c g := by
      intro c g
      unfold countGC
      exact (hd.filter _).length_eq
    unfold dataByCentury
    simp only [hc]

/-- C7, witness: swapping two concrete records leaves the pooled series
unchanged. -/
theorem C7_order_independence_w :
    pooledA [⟨"BIO", 3, 255, 1, "", "", ""⟩, ⟨"DEV", 3, 257, 2, "", "", ""⟩]
      = pooledA [⟨"DEV", 3, 257, 2, "", "", ""⟩, ⟨"BIO", 3, 255, 1, "", "", ""⟩] :=
  (C7_order_independence _ _ [] [] (List.Perm.swap _ _ _) (List.Perm.refl _)).1

/-- Nine rows that all build, against the data page's minimum of 10. -/
def cells9 : List DataCells := List.replicate 9 ⟨"BIO", some "3", none⟩

/-- Ten rows that all build, meeting the data page's minimum of 10. -/
def cells10 : List DataCells := List.replicate 10 ⟨"BIO", some "3", none⟩

/-- C8: each builder run signals the insufficient-data diagnostic exactly when
the number of built records is below its configured minimum (10 on the data
page, 20 on the results page), reporting that count, and otherwise returns
the full record list (of length at least the minimum); in particular nine
records against a minimum of 10 trigger the diagnostic. -/
theorem C8_min_threshold :
    (∀ rs, (∃ n, runData rs = Outcome.insufficient n) ↔
      (rs.filterMap buildRowData).length < 10) ∧
    (∀ rs recs, runData rs = Outcome.ok recs →
      recs = rs.filterMap buildRowData ∧ 10 ≤ recs.length) ∧
    (∀ rs, (∃ n, runA rs = Outcome.insufficient n) ↔
      (rs.filterMap buildRowA).length < 20) ∧
    (∀ rs recs, runA rs = Outcome.ok recs →
      recs = rs.filterMap buildRowA ∧ 20 ≤ recs.length) ∧
    runData cells9 = Outcome.insufficient 9 := by
  refine ⟨?_, ?_, ?_, ?_, by decide⟩
  · intro rs
    unfold runData
    by_cases hlt : (rs.filterMap buildRowData).length < 10
    · rw [if_pos hlt]
      exact ⟨fun _ => hlt, fun _ => ⟨_, rfl⟩⟩
    · rw [if_neg hlt]
      exact ⟨fun hn => absurd hn (by rintro ⟨n, hn⟩; exact Outcome.noConfusion hn),
        fun hcontra => absurd hcontra hlt⟩
  · intro rs recs h
    unfold runData at h
    by_cases hlt : (rs.filterMap buildRowData).length < 10
    · rw [if_pos hlt] at h
      exact Outcome.noConfusion h
    · rw [if_neg hlt] at h
      injection h with h
      exact ⟨h.symm, h ▸ Nat.le_of_not_lt hlt⟩
  · intro rs
    unfold runA
    by_cases hlt : (rs.filterMap buildRowA).length < 20
    · rw [if_pos hlt]
      exact ⟨fun _ => hlt, fun _ => ⟨_, rfl⟩⟩
    · rw [if_neg hlt]
      exact ⟨fun hn => absurd hn (by rintro ⟨n, hn⟩; exact Outcome.noConfusion hn),
        fun hcontra => absurd hcontra hlt⟩
  · intro rs recs h
    unfold runA at h
    by_cases hlt : (rs.filterMap buildRowA).length < 20
    · rw [if_pos hlt] at h
      exact Outcome.noConfusion h
    · rw [if_neg hlt] at h
      injection h with h
      exact ⟨h.symm, h ▸ Nat.le_of_not_lt hlt⟩

/-- C8, witness: ten records meet the minimum, so the run returns them. -/
theorem C8_min_threshold_w :
    List.replicate 10 (DataRecord.mk "BIO" 3) = cells10.filterMap buildRowData ∧
      10 ≤ (List.replicate 10 (DataRecord.mk "BIO" 3)).length :=
  C8_min_threshold.2.1 cells10 (List.replicate 10 ⟨"BIO", 3⟩) (by decide)

/-- C9, counterexample: the claim's rule (c) accepts a code contained in the
value as a separated token; but `normalizeGenre` of the results pages only
tests prefixes, so the value "QQQ BIO" — whose upper-casing contains " BIO" as
a separated token — resolves to absent rather than BIO. -/
theorem C9_counterexample : normalizeGenre "QQQ BIO" = none := by decide

/-- C9 (amended): every non-absent genre result, on either page, is one of the
six codes. The results pages' `normalizeGenre` applies, in order: (a) exact
whole-value match of the upper-cased value, (b) the single-letter map on the
lower-cased value, (c) the first code the upper-cased value *starts with* —
there is no separated-token containment rule, so "QQQ BIO" is absent while
"b" maps to BIO and the label "POE - Poetic" matches by prefix. The data
page's `inferGenreValue` instead scans the six codes for exact, prefix, or
space-separated containment ("QQQ BIO" resolves to BIO) but has no
single-letter map ("b" is absent there). -/
theorem C9_genre_resolution :
    (∀ s g, normalizeGenre s = some g → g ∈ GENRES) ∧
    (∀ s g, inferGenreValue s = some g → g ∈ GENRES) ∧
    (∀ s, s ≠ "" → GENRES.contains (upperStr (normString s)) = true →
      normalizeGenre s = some (upperStr (normString s))) ∧
    (∀ s g, s ≠ "" → GENRES.contains (upperStr (normString s)) = false →
      genreMapLookup (lowerStr (normString s)) = some g → normalizeGenre s = some g) ∧
    normalizeGenre "b" = some "BIO" ∧
    normalizeGenre "POE - Poetic" = some "POE" ∧
    normalizeGenre "QQQ BIO" = none ∧
    inferGenreValue "QQQ BIO" = some "BIO" ∧
    inferGenreValue "b" = none := by
  refine ⟨normalizeGenre_mem, inferGenreValue_mem, ?_, ?_, by decide, by decide,
    by decide, by decide, by decide⟩
  · intro s hne hmem
    simp only [normalizeGenre]
    rw [if_neg hne, if_pos hmem]
  · intro s g hne hmem hmap
    simp only [normalizeGenre]
    rw [if_neg hne, if_neg (by rw [hmem]; exact Bool.false_ne_true), hmap]

/-- C9, witness: a lower-cased exact value resolves through the exact-match
rule to its upper-cased code. -/
theorem C9_genre_resolution_w : normalizeGenre "poe" = some "POE" := by
  have h := C9_genre_resolution.2.2.1 "poe" (by decide) (by decide)
  rw [h]
  decide

end LoveLit
